import Mathlib

/-!
Formal model of the sector-analysis indicator engine (`src/sector_analysis.py`).

The Python program fetches daily OHLCV series per sector ETF, computes a
panel of technical indicators with pandas rolling windows
(`calculate_technical_indicators`), trims the warm-up rows (`dropna`) and
the retained window (`tail(250)`), renders rows (`get_sector_data`), and
writes them to a spreadsheet either by full overwrite (bootstrap) or by
inserting at row 2 (incremental) (`update_sheet`).

Modelling conventions:
* Prices and volumes are exact rationals (`ℚ`).  The float semantics the
  claims depend on are reproduced explicitly: pandas produces `NaN` for an
  incomplete rolling window and for the `0/0` RSI ratio, and `+inf` for
  `positive/0`, so `100 - 100/(1 + gain/loss)` is `NaN` exactly when both
  rolling means are `0` and is exactly `100` when only the loss mean is `0`.
  A nullable column value is an `Option ℚ`; `none` models `NaN`.
* `pandas.rolling(w).std()` takes a square root, which has no exact value
  in `ℚ`; the model therefore abstracts the sample-standard-deviation
  primitive as a parameter `stdFn : List ℚ → ℚ` (the value numpy returns on
  the 20-close window).  Every theorem below holds for every `stdFn`, so no
  settled claim depends on the abstracted value.
* `round(x, n)` is modelled as scaling and flooring `x·10^n + 1/2`
  (round-half-up).  Python uses round-half-to-even on binary floats; the
  two differ only on exact representable halves, which no claim touches.
* Wall-clock time: each call of `datetime.datetime.now().strftime(...)`
  inside `make_row` is modelled by reading `clock k` for the k-th
  constructed row of a task invocation.
* The spec declares non-positive prices and malformed feeds undefined
  behaviour (§4.1), so division by a zero moving average, which `ℚ`
  evaluates to `0` where floats give `inf`, is outside every claim.
-/

namespace SectorAnalysis

/-- One raw daily observation of the fetched history: date (already
formatted as in `date_idx.strftime('%Y-%m-%d')`), close price, volume. -/
structure Obs where
  date : String
  close : ℚ
  volume : ℚ
deriving Repr, DecidableEq

/-- The fetched history `hist`: chronologically ordered daily observations. -/
abbrev Hist := List Obs

/-- The observation at positional index `t` (dummy observation outside range;
the engine only reads indices below the length). -/
def obsAt (hist : Hist) (t : Nat) : Obs := hist.getD t ⟨"", 0, 0⟩

/-- The `Close` column. -/
def closes (hist : Hist) : List ℚ := hist.map Obs.close

/-- The `Volume` column. -/
def vols (hist : Hist) : List ℚ := hist.map Obs.volume

/-- `df['Close']` at index `t`. -/
def closeAt (hist : Hist) (t : Nat) : ℚ := (obsAt hist t).close

/-- `df['Volume']` at index `t`. -/
def volAt (hist : Hist) (t : Nat) : ℚ := (obsAt hist t).volume

/-- The trailing window of length `w` ending at index `t` (inclusive), as
used by `Series.rolling(window=w)`. -/
def windowAt (xs : List ℚ) (w t : Nat) : List ℚ := (xs.take (t+1)).drop (t+1-w)

/-- `Series.rolling(window=w).mean()` at index `t`: `none` (NaN) while the
window is incomplete, otherwise the arithmetic mean of the trailing `w`
values. -/
def rollingMean (xs : List ℚ) (w t : Nat) : Option ℚ :=
  if w ≤ t+1 ∧ t < xs.length then some ((windowAt xs w t).sum / (w : ℚ)) else none

/-- `df['ma5'] / df['ma25'] / df['ma75']`: the `w`-day simple moving average
of the close at index `t`. -/
def ma (hist : Hist) (w t : Nat) : Option ℚ := rollingMean (closes hist) w t

/-- `df['diff_short'/'diff_mid'/'diff_long']`: percentage deviation of the
close from its `w`-day moving average, `((Close - ma) / ma) * 100`. -/
def diffPct (hist : Hist) (w t : Nat) : Option ℚ :=
  (ma hist w t).map (fun m => (closeAt hist t - m) / m * 100)

/-- The positive part of `delta = df['Close'].diff()` at index `t`, after
`delta.where(delta > 0, 0)`: pandas evaluates `NaN > 0` as `False`, so the
first row's `NaN` delta is replaced by `0`. -/
def gainAt (hist : Hist) (t : Nat) : ℚ :=
  if t = 0 then 0 else max (closeAt hist t - closeAt hist (t-1)) 0

/-- The negative part of the daily delta, `(-delta.where(delta < 0, 0))`,
with the first row's `NaN` likewise replaced by `0`. -/
def lossAt (hist : Hist) (t : Nat) : ℚ :=
  if t = 0 then 0 else max (closeAt hist (t-1) - closeAt hist t) 0

/-- The gain series fed into `rolling(window=14).mean()`. -/
def gains (hist : Hist) : List ℚ := (List.range hist.length).map (gainAt hist)

/-- The loss series fed into `rolling(window=14).mean()`. -/
def losses (hist : Hist) : List ℚ := (List.range hist.length).map (lossAt hist)

/-- `df['rsi'] = 100 - (100 / (1 + gain/loss))` with 14-day rolling means.
Float semantics reproduced exactly: incomplete window → NaN (`none`);
`loss = 0, gain = 0` → `0/0 = NaN` (`none`); `loss = 0, gain > 0` →
`gain/0 = +inf` and `100 - 100/(1+inf) = 100`; otherwise the finite
formula. -/
def rsi (hist : Hist) (t : Nat) : Option ℚ :=
  match rollingMean (gains hist) 14 t, rollingMean (losses hist) 14 t with
  | some g, some l =>
      if l = 0 then (if g = 0 then none else some 100)
      else some (100 - 100 / (1 + g / l))
  | _, _ => none

/-- `df['bb_ma']`: the 20-day moving average of the close. -/
def bbMa (hist : Hist) (t : Nat) : Option ℚ := rollingMean (closes hist) 20 t

/-- `df['bb_std'] = df['Close'].rolling(window=20).std()`: the sample
standard deviation of the 20-close window, abstracted as `stdFn` applied to
that window (see the module comment); `none` (NaN) while incomplete. -/
def bbStd (stdFn : List ℚ → ℚ) (hist : Hist) (t : Nat) : Option ℚ :=
  if 20 ≤ t+1 ∧ t < hist.length then some (stdFn (windowAt (closes hist) 20 t)) else none

/-- `df['bb_up'] = df['bb_ma'] + (df['bb_std'] * 2)`. -/
def bbUp (stdFn : List ℚ → ℚ) (hist : Hist) (t : Nat) : Option ℚ :=
  match bbMa hist t, bbStd stdFn hist t with
  | some m, some s => some (m + s * 2)
  | _, _ => none

/-- `df['bb_low'] = df['bb_ma'] - (df['bb_std'] * 2)`. -/
def bbLow (stdFn : List ℚ → ℚ) (hist : Hist) (t : Nat) : Option ℚ :=
  match bbMa hist t, bbStd stdFn hist t with
  | some m, some s => some (m - s * 2)
  | _, _ => none

/-- `df['bb_pct_b'] = np.where(bb_range == 0, 0, (Close - bb_low)/bb_range)`:
`0` when the band width is exactly zero, the normalized position otherwise,
NaN (`none`) exactly while the 20-day window is incomplete. -/
def bbPctB (stdFn : List ℚ → ℚ) (hist : Hist) (t : Nat) : Option ℚ :=
  match bbUp stdFn hist t, bbLow stdFn hist t with
  | some u, some l =>
      some (if u - l = 0 then 0 else (closeAt hist t - l) / (u - l))
  | _, _ => none

/-- `df['vol_ma5']`: the 5-day moving average of the volume. -/
def volMa5 (hist : Hist) (t : Nat) : Option ℚ := rollingMean (vols hist) 5 t

/-- `df['vol_ratio'] = np.where(vol_ma5 == 0, 0, Volume / vol_ma5)`. -/
def volRatioAt (hist : Hist) (t : Nat) : Option ℚ :=
  (volMa5 hist t).map (fun m => if m = 0 then 0 else volAt hist t / m)

/-- `df['change_pct'] = df['Close'].pct_change() * 100`: NaN (`none`) on the
first row, otherwise the percentage change against the previous close. -/
def changePct (hist : Hist) (t : Nat) : Option ℚ :=
  if 1 ≤ t ∧ t < hist.length then
    some ((closeAt hist t - closeAt hist (t-1)) / closeAt hist (t-1) * 100)
  else none

/-- A row survives `df.dropna()` exactly when every derived column at its
index is non-null. -/
def rowComplete (stdFn : List ℚ → ℚ) (hist : Hist) (t : Nat) : Bool :=
  (diffPct hist 5 t).isSome && (diffPct hist 25 t).isSome && (diffPct hist 75 t).isSome
    && (rsi hist t).isSome && (bbPctB stdFn hist t).isSome
    && (volRatioAt hist t).isSome && (changePct hist t).isSome

/-- The indices surviving `df.dropna()`, in chronological order. -/
def validIdx (stdFn : List ℚ → ℚ) (hist : Hist) : List Nat :=
  (List.range hist.length).filter (fun t => rowComplete stdFn hist t)

/-- The indices surviving `df.dropna().tail(250)`: the most recent at most
250 valid indices. -/
def keptIdx (stdFn : List ℚ → ℚ) (hist : Hist) : List Nat :=
  (validIdx stdFn hist).drop ((validIdx stdFn hist).length - 250)

/-- Floor of a rational, computed on the reduced numerator/denominator. -/
def ratFloor (q : ℚ) : ℤ := Int.fdiv q.num q.den

/-- Python's `round(x, n)`, modelled as round-half-up on exact rationals
(see the module comment on the half-to-even difference). -/
def roundTo (n : Nat) (x : ℚ) : ℚ := ((ratFloor (x * 10^n + 1/2) : ℚ)) / 10^n

/-- One rendered output row, in the sheet's column order A..L as built by
`make_row` inside `get_sector_data`. -/
structure Row where
  code : String
  sector : String
  date : String
  close : ℚ
  change_pct : ℚ
  diff_short : ℚ
  diff_mid : ℚ
  diff_long : ℚ
  rsi_cell : ℚ
  bb_pct_b : ℚ
  vol_ratio : ℚ
  computed_at : String
deriving Repr, DecidableEq

/-- `make_row(date_idx, row)`: renders index `t` of the enriched frame into
the sheet's record shape, with the `L` column timestamp `now` read from the
wall clock at construction time.  The `Option.getD 0` defaults are never
exercised: `make_row` is only applied to indices that survived `dropna`. -/
def makeRow (code sectorName : String) (stdFn : List ℚ → ℚ) (hist : Hist)
    (t : Nat) (now : String) : Row :=
  { code := code
    sector := sectorName
    date := (obsAt hist t).date
    close := roundTo 1 (closeAt hist t)
    change_pct := roundTo 2 ((changePct hist t).getD 0)
    diff_short := roundTo 2 ((diffPct hist 5 t).getD 0)
    diff_mid := roundTo 2 ((diffPct hist 25 t).getD 0)
    diff_long := roundTo 2 ((diffPct hist 75 t).getD 0)
    rsi_cell := roundTo 1 ((rsi hist t).getD 0)
    bb_pct_b := roundTo 2 ((bbPctB stdFn hist t).getD 0)
    vol_ratio := roundTo 2 ((volRatioAt hist t).getD 0)
    computed_at := now }

/-- Renders the listed indices in order; the k-th constructed row reads the
k-th wall-clock value `clock k`, because `make_row` calls
`datetime.datetime.now()` separately for every row. -/
def renderRows (code sectorName : String) (stdFn : List ℚ → ℚ) (hist : Hist)
    (clock : Nat → String) : Nat → List Nat → List Row
  | _, [] => []
  | k, t :: ts =>
      makeRow code sectorName stdFn hist t (clock k) ::
        renderRows code sectorName stdFn hist clock (k+1) ts

/-- `get_sector_data(code, name, is_initial_run)`: acquire the history
(`fetched` is the outcome of `yf.Ticker(...).history(period="2y")`, an
`Except` whose error case models a raised feed exception), compute the
indicators, drop warm-up rows, keep the last 250, and render either the
full history newest-first (`is_initial_run`) or only the latest row.  The
surrounding `try/except` converts any feed exception into `[]`. -/
def get_sector_data (code sectorName : String) (is_initial_run : Bool)
    (fetched : Except String Hist) (stdFn : List ℚ → ℚ) (clock : Nat → String) : List Row :=
  match fetched with
  | .error _ => []
  | .ok hist =>
    if hist.isEmpty then []
    else if is_initial_run then
      renderRows code sectorName stdFn hist clock 0 (keptIdx stdFn hist).reverse
    else
      match (keptIdx stdFn hist).getLast? with
      | some t => [makeRow code sectorName stdFn hist t (clock 0)]
      | none => []

/-- `SECTOR_ETFS`: the fixed TOPIX-17 instrument list, in the source's
insertion order (which is the submission order of the thread-pool tasks). -/
def SECTOR_ETFS : List (String × String) :=
  [("1617", "食品"), ("1618", "エネルギー・資源"), ("1619", "建設・資材"),
   ("1620", "素材・化学"), ("1621", "医薬品"), ("1622", "自動車・輸送機"),
   ("1623", "鉄鋼・非鉄"), ("1624", "機械"), ("1625", "電機・精密"),
   ("1626", "情報通信・サービス"), ("1627", "電力・ガス"), ("1628", "運輸・物流"),
   ("1629", "商社・卸売"), ("1630", "小売"), ("1631", "銀行"),
   ("1632", "金融(除く銀行)"), ("1633", "不動産")]

/-- The header row written in bootstrap mode. -/
def HEADERS : List String :=
  ["コード", "セクター名", "日付", "現在値", "前日比(%)",
   "短期(5日乖離)", "中期(25日乖離)", "長期(75日乖離)",
   "RSI", "BB%B(過熱)", "出来高倍率", "更新日時"]

/-- The sort key of `all_rows.sort(key=lambda x: (x[2], x[0]), reverse=True)`:
the `(date, code)` pair compared lexicographically, each string by code
points (modelled on the underlying character lists). -/
def rowKey (r : Row) : Lex (List Char × List Char) := toLex (r.date.data, r.code.data)

/-- `a` may precede `b` in the descending sort: `a`'s key is at least `b`'s.
A stable sort under this relation is exactly Python's
`sort(key=..., reverse=True)`, which keeps the original relative order of
equal-key rows. -/
def rowDescOrder (a b : Row) : Prop := rowKey b ≤ rowKey a

instance : DecidableRel rowDescOrder :=
  fun a b => inferInstanceAs (Decidable (rowKey b ≤ rowKey a))

instance : IsTotal Row rowDescOrder := ⟨fun a b => le_total (rowKey b) (rowKey a)⟩

instance : IsTrans Row rowDescOrder := ⟨fun _ _ _ hab hbc => le_trans hbc hab⟩

/-- Strictly descending keys (used to show the sorted result is unique). -/
def rowDescStrict (a b : Row) : Prop := rowKey b < rowKey a

instance : IsAntisymm Row rowDescStrict :=
  ⟨fun _ _ h1 h2 => absurd h2 (not_lt.mpr (le_of_lt h1))⟩

/-- The merge/sort stage's ordering pass: a stable sort, descending by
`(date, code)`. -/
def sortRows (rows : List Row) : List Row := rows.insertionSort rowDescOrder

/-- The two write primitives of the sheet sink used by `update_sheet`:
`overwrite` is `worksheet.clear()` followed by
`worksheet.update(range_name='A1', values=[headers] + all_rows)`, and
`insertRows rows pos` is `worksheet.insert_rows(rows, row=pos)`. -/
inductive SinkAction where
  | overwrite (header : List String) (rows : List Row)
  | insertRows (rows : List Row) (pos : Nat)
deriving Repr, DecidableEq

/-- One line of the persisted sheet: the header row or a data row. -/
inductive SheetLine where
  | headerLine (cells : List String)
  | dataLine (r : Row)
deriving Repr, DecidableEq

/-- The effect of one sink primitive on the persisted table (rows are
1-based in the sheet API: inserting at `pos` places the new rows before the
old line number `pos`). -/
def applyAction (tbl : List SheetLine) : SinkAction → List SheetLine
  | .overwrite h rows => SheetLine.headerLine h :: rows.map SheetLine.dataLine
  | .insertRows rows pos =>
      tbl.take (pos - 1) ++ rows.map SheetLine.dataLine ++ tbl.drop (pos - 1)

/-- The environment of one `update_sheet()` run.  `first_cell` is the
outcome of `worksheet.acell('A1').value`: `Except.error` models the read
raising, `Except.ok none` an absent value, `Except.ok (some s)` a present
cell value.  `authorize_ok = false` models `gspread.authorize` (or
credential parsing) raising, which is not caught anywhere. -/
structure RunInput where
  creds_found : Bool
  authorize_ok : Bool
  sheet_url_set : Bool
  sheet_open_ok : Bool
  first_cell : Except Unit (Option String)
  fetch : String → Except String Hist
  stdFn : List ℚ → ℚ
  clock : String → Nat → String

/-- Python truthiness of the A1 cell value: `bool(None)` and `bool('')` are
`False`, any other string is truthy. -/
def truthyCell : Option String → Bool
  | none => false
  | some s => !(s = "")

/-- `is_initial_run`: `True` when reading A1 raised, else `not bool(val_a1)`. -/
def isInitialOf : Except Unit (Option String) → Bool
  | .error _ => true
  | .ok v => !(truthyCell v)

/-- The orchestrator: one `get_sector_data` task per configured instrument
(submitted in `SECTOR_ETFS` order, results collected in submission order),
empty results contributing nothing. -/
def batchRows (is_initial_run : Bool) (fetch : String → Except String Hist)
    (stdFn : List ℚ → ℚ) (clock : String → Nat → String) : List Row :=
  (SECTOR_ETFS.map
    (fun p => get_sector_data p.1 p.2 is_initial_run (fetch p.1) stdFn (clock p.1))).flatten

/-- `update_sheet()`: resolves the mode from A1, runs the batch, sorts, and
performs the final write.  The result is `Except.ok acts` when the function
returns normally having invoked the sink primitives `acts` in order, and
`Except.error` when an uncaught exception escapes (only authorization can
raise here; the three config/connectivity checks print and `return`). -/
def update_sheet (inp : RunInput) : Except String (List SinkAction) :=
  if inp.creds_found = false then .ok []
  else if inp.authorize_ok = false then .error "authorize raised"
  else if inp.sheet_url_set = false then .ok []
  else if inp.sheet_open_ok = false then .ok []
  else
    let is_initial_run := isInitialOf inp.first_cell
    let all_rows := batchRows is_initial_run inp.fetch inp.stdFn inp.clock
    if is_initial_run then .ok [SinkAction.overwrite HEADERS (sortRows all_rows)]
    else if all_rows.isEmpty then .ok []
    else .ok [SinkAction.insertRows (sortRows all_rows) 2]

/-- Process exit status of `python sector_analysis.py`: zero unless an
exception escapes `update_sheet` (the script installs no other exit path). -/
def exitCode (inp : RunInput) : Nat :=
  match update_sheet inp with
  | .ok _ => 0
  | .error _ => 1

/-! ## Concrete inputs used by witnesses and counterexamples -/

/-- Thirty flat trading days at close 100 and volume 1000: the §8 example
scenario for instrument "A". -/
def flat30 : Hist := List.replicate 30 ⟨"2025-01-30", 100, 1000⟩

/-- A 76-day strictly increasing series (closes 1..76, volume 1): long
enough to saturate the 75-day window, so exactly two rows survive. -/
def inc76 : Hist := (List.range 76).map (fun i => ⟨"2025-06-30", (i : ℚ) + 1, 1⟩)

/-- A 15-day strictly increasing series: saturates only the 14-day RSI
window. -/
def inc15 : Hist := (List.range 15).map (fun i => ⟨"2025-06-30", (i : ℚ) + 1, 1⟩)

/-- Twenty flat closes with zero volume: degenerate band and zero mean
volume. -/
def flatVol0 : Hist := List.replicate 20 ⟨"2025-06-30", 100, 0⟩

/-! ## Helper lemmas -/

theorem closeAt_of_flat {hist : Hist} {c : ℚ} (hc : ∀ o ∈ hist, o.close = c)
    {t : Nat} (ht : t < hist.length) : closeAt hist t = c := by
  rw [closeAt, obsAt, List.getD_eq_getElem _ _ ht]
  exact hc _ (List.getElem_mem ht)

theorem gainAt_of_flat {hist : Hist} {c : ℚ} (hc : ∀ o ∈ hist, o.close = c)
    {t : Nat} (ht : t < hist.length) : gainAt hist t = 0 := by
  rcases Nat.eq_zero_or_pos t with h0 | hpos
  · simp [gainAt, h0]
  · have h1 : t - 1 < hist.length := lt_of_le_of_lt (Nat.sub_le t 1) ht
    rw [gainAt, if_neg (Nat.pos_iff_ne_zero.mp hpos), closeAt_of_flat hc ht,
      closeAt_of_flat hc h1]
    simp

theorem lossAt_of_flat {hist : Hist} {c : ℚ} (hc : ∀ o ∈ hist, o.close = c)
    {t : Nat} (ht : t < hist.length) : lossAt hist t = 0 := by
  rcases Nat.eq_zero_or_pos t with h0 | hpos
  · simp [lossAt, h0]
  · have h1 : t - 1 < hist.length := lt_of_le_of_lt (Nat.sub_le t 1) ht
    rw [lossAt, if_neg (Nat.pos_iff_ne_zero.mp hpos), closeAt_of_flat hc ht,
      closeAt_of_flat hc h1]
    simp

theorem mem_windowAt {xs : List ℚ} {w t : Nat} {x : ℚ}
    (hx : x ∈ windowAt xs w t) : x ∈ xs :=
  List.mem_of_mem_take (List.mem_of_mem_drop hx)

theorem rollingMean_eq_zero_of_all_zero {xs : List ℚ} {w t : Nat}
    (hall : ∀ x ∈ xs, x = 0) (hcond : w ≤ t + 1 ∧ t < xs.length) :
    rollingMean xs w t = some 0 := by
  rw [rollingMean, if_pos hcond,
    List.sum_eq_zero (fun x hx => hall x (mem_windowAt hx))]
  simp

theorem gains_all_zero_of_flat {hist : Hist} {c : ℚ}
    (hc : ∀ o ∈ hist, o.close = c) : ∀ x ∈ gains hist, x = 0 := by
  intro x hx
  obtain ⟨i, hi, rfl⟩ := List.mem_map.mp hx
  exact gainAt_of_flat hc (List.mem_range.mp hi)

theorem losses_all_zero_of_flat {hist : Hist} {c : ℚ}
    (hc : ∀ o ∈ hist, o.close = c) : ∀ x ∈ losses hist, x = 0 := by
  intro x hx
  obtain ⟨i, hi, rfl⟩ := List.mem_map.mp hx
  exact lossAt_of_flat hc (List.mem_range.mp hi)

theorem length_gains (hist : Hist) : (gains hist).length = hist.length := by
  simp [gains]

theorem length_losses (hist : Hist) : (losses hist).length = hist.length := by
  simp [losses]

/-- On an all-flat series both 14-day rolling means are zero wherever they
are defined, so `rs = 0/0` is NaN and `rsi` is null at every index. -/
theorem rsi_of_flat {hist : Hist} {c : ℚ} (hc : ∀ o ∈ hist, o.close = c)
    (t : Nat) : rsi hist t = none := by
  rw [rsi]
  by_cases hcond : 14 ≤ t + 1 ∧ t < hist.length
  · rw [rollingMean_eq_zero_of_all_zero (gains_all_zero_of_flat hc)
        (by rw [length_gains]; exact hcond),
      rollingMean_eq_zero_of_all_zero (losses_all_zero_of_flat hc)
        (by rw [length_losses]; exact hcond)]
    simp
  · rw [show rollingMean (gains hist) 14 t = none by
      rw [rollingMean, if_neg]; rw [length_gains]; exact hcond]

theorem rowComplete_eq_false_of_rsi_none {stdFn : List ℚ → ℚ} {hist : Hist}
    {t : Nat} (h : rsi hist t = none) : rowComplete stdFn hist t = false := by
  simp [rowComplete, h]

theorem validIdx_of_flat {stdFn : List ℚ → ℚ} {hist : Hist} {c : ℚ}
    (hc : ∀ o ∈ hist, o.close = c) : validIdx stdFn hist = [] := by
  rw [validIdx, List.filter_eq_nil_iff]
  intro t _
  simp [rowComplete_eq_false_of_rsi_none (rsi_of_flat hc t)]

theorem get_sector_data_of_valid_nil {stdFn : List ℚ → ℚ} {hist : Hist}
    (h : validIdx stdFn hist = []) (code sectorName : String) (mode : Bool)
    (clock : Nat → String) :
    get_sector_data code sectorName mode (.ok hist) stdFn clock = [] := by
  rw [get_sector_data]
  have hk : keptIdx stdFn hist = [] := by rw [keptIdx, h]; rfl
  rw [hk]
  rcases hist.isEmpty with _ | _ <;> rcases mode with _ | _ <;> simp [renderRows]

/-! ## Claim C1 -/

/-- Claim C1 is false on the code: for the §8 example (30 flat closes at
100, volume 1000) the 14-day average gain and loss are both zero, `rs =
0/0` is NaN, the RSI column is null (not 50), and every row is dropped by
`dropna()` — additionally 30 < 75, the longest window — so no retained row
for day 30 exists in either mode. -/
theorem C1_counterexample :
    get_sector_data "A" "SectorA" true (.ok flat30) (fun _ => 0)
        (fun _ => "2025-01-30 09:00") = [] ∧
    get_sector_data "A" "SectorA" false (.ok flat30) (fun _ => 0)
        (fun _ => "2025-01-30 09:00") = [] ∧
    rsi flat30 29 = none := by
  refine ⟨?_, ?_, ?_⟩ <;> with_unfolding_all decide

/-- Claim C1 amended: on any constant-close series the RSI column is null
(`0/0` NaN) at every index — never the neutral 50 — and consequently the
task retains zero rows in both modes (for the 30-day example this also
follows from 30 < 75). -/
theorem C1_amended (hist : Hist) (c : ℚ) (hc : ∀ o ∈ hist, o.close = c) :
    (∀ t, rsi hist t = none) ∧
    (∀ (code sectorName : String) (mode : Bool) (stdFn : List ℚ → ℚ)
        (clock : Nat → String),
      get_sector_data code sectorName mode (.ok hist) stdFn clock = []) :=
  ⟨rsi_of_flat hc,
   fun code sectorName mode stdFn clock =>
     @get_sector_data_of_valid_nil stdFn hist (validIdx_of_flat hc)
       code sectorName mode clock⟩

/-- Witness for C1_amended at the concrete §8 scenario. -/
theorem C1_witness :
    rsi flat30 29 = none ∧
    get_sector_data "1617" "食品" true (.ok flat30) (fun _ => 0)
      (fun _ => "2025-01-30 09:00") = [] :=
  ⟨(C1_amended flat30 100 (by with_unfolding_all decide)).1 29,
   (C1_amended flat30 100 (by with_unfolding_all decide)).2 "1617" "食品" true
     (fun _ => 0) (fun _ => "2025-01-30 09:00")⟩

/-! ## Claim C3 -/

theorem mem_validIdx {stdFn : List ℚ → ℚ} {hist : Hist} {t : Nat} :
    t ∈ validIdx stdFn hist ↔ t < hist.length ∧ rowComplete stdFn hist t = true := by
  simp [validIdx, List.mem_filter, List.mem_range]

theorem validIdx_pairwise_lt (stdFn : List ℚ → ℚ) (hist : Hist) :
    (validIdx stdFn hist).Pairwise (· < ·) :=
  List.Pairwise.filter _ (List.pairwise_lt_range _)

theorem keptIdx_suffix (stdFn : List ℚ → ℚ) (hist : Hist) :
    List.IsSuffix (keptIdx stdFn hist) (validIdx stdFn hist) :=
  List.drop_suffix _ _

theorem keptIdx_length (stdFn : List ℚ → ℚ) (hist : Hist) :
    (keptIdx stdFn hist).length = min (validIdx stdFn hist).length 250 := by
  rw [keptIdx, List.length_drop]
  omega

theorem getLast?_keptIdx {stdFn : List ℚ → ℚ} {hist : Hist}
    (h : validIdx stdFn hist ≠ []) :
    (keptIdx stdFn hist).getLast? = (validIdx stdFn hist).getLast? := by
  rw [keptIdx, List.getLast?_drop, if_neg]
  have : 0 < (validIdx stdFn hist).length := List.length_pos.mpr h
  omega

theorem le_getLast_of_pairwise_lt :
    ∀ (l : List Nat), l.Pairwise (· < ·) → ∀ t, l.getLast? = some t →
      ∀ u ∈ l, u ≤ t := by
  intro l hs t hl u hu
  obtain ⟨ys, rfl⟩ := List.getLast?_eq_some_iff.mp hl
  rcases List.mem_append.mp hu with h | h
  · exact le_of_lt ((List.pairwise_append.mp hs).2.2 u h t (List.mem_singleton.mpr rfl))
  · exact le_of_eq (List.mem_singleton.mp h)

theorem length_renderRows (code sectorName : String) (stdFn : List ℚ → ℚ)
    (hist : Hist) (clock : Nat → String) :
    ∀ (k : Nat) (ts : List Nat),
      (renderRows code sectorName stdFn hist clock k ts).length = ts.length := by
  intro k ts
  induction ts generalizing k with
  | nil => rfl
  | cons t ts ih => simp [renderRows, ih]

theorem rowComplete_isSome {stdFn : List ℚ → ℚ} {hist : Hist} {t : Nat}
    (h : rowComplete stdFn hist t = true) :
    (diffPct hist 5 t).isSome = true ∧ (diffPct hist 25 t).isSome = true ∧
    (diffPct hist 75 t).isSome = true ∧ (rsi hist t).isSome = true ∧
    (bbPctB stdFn hist t).isSome = true ∧ (volRatioAt hist t).isSome = true ∧
    (changePct hist t).isSome = true := by
  rw [rowComplete] at h
  simp only [Bool.and_eq_true] at h
  tauto

theorem diffPct_isSome_iff {hist : Hist} {w t : Nat} :
    (diffPct hist w t).isSome = true ↔ w ≤ t + 1 ∧ t < hist.length := by
  rw [diffPct, ma, rollingMean]
  by_cases h : w ≤ t + 1 ∧ t < (closes hist).length
  · rw [if_pos h]
    simpa [closes] using h
  · rw [if_neg h]
    simpa [closes] using h

theorem validIdx_eq_nil_of_short {stdFn : List ℚ → ℚ} {hist : Hist}
    (h : hist.length < 75) : validIdx stdFn hist = [] := by
  rw [validIdx, List.filter_eq_nil_iff]
  intro t _
  intro hcomp
  have h75 := (rowComplete_isSome hcomp).2.2.1
  have := (diffPct_isSome_iff.mp h75)
  omega

theorem hist_not_empty_of_valid {stdFn : List ℚ → ℚ} {hist : Hist} {t : Nat}
    (h : t ∈ validIdx stdFn hist) : hist.isEmpty = false := by
  have := (mem_validIdx.mp h).1
  cases hist with
  | nil => simp at this
  | cons o os => rfl

/-- Claim C3: the trimming stage retains only indices at which every derived
field is non-null; full-history mode keeps at most the 250 most recent
valid indices (a suffix of the valid list); latest-only mode keeps exactly
the single most recent valid row when one exists and nothing otherwise; any
series shorter than the longest window (75) yields zero retained rows. -/
theorem C3_trimming (stdFn : List ℚ → ℚ) (hist : Hist)
    (code sectorName : String) (clock : Nat → String) :
    (∀ t ∈ keptIdx stdFn hist,
        (diffPct hist 5 t).isSome = true ∧ (diffPct hist 25 t).isSome = true ∧
        (diffPct hist 75 t).isSome = true ∧ (rsi hist t).isSome = true ∧
        (bbPctB stdFn hist t).isSome = true ∧ (volRatioAt hist t).isSome = true ∧
        (changePct hist t).isSome = true) ∧
    ((get_sector_data code sectorName true (.ok hist) stdFn clock).length
        = min (validIdx stdFn hist).length 250 ∧
      List.IsSuffix (keptIdx stdFn hist) (validIdx stdFn hist)) ∧
    (∀ t, (validIdx stdFn hist).getLast? = some t →
        get_sector_data code sectorName false (.ok hist) stdFn clock
          = [makeRow code sectorName stdFn hist t (clock 0)] ∧
        ∀ u ∈ validIdx stdFn hist, u ≤ t) ∧
    (validIdx stdFn hist = [] →
        get_sector_data code sectorName false (.ok hist) stdFn clock = []) ∧
    (hist.length < 75 →
        validIdx stdFn hist = [] ∧
        get_sector_data code sectorName true (.ok hist) stdFn clock = [] ∧
        get_sector_data code sectorName false (.ok hist) stdFn clock = []) := by
  refine ⟨?_, ⟨?_, keptIdx_suffix stdFn hist⟩, ?_, ?_, ?_⟩
  · intro t ht
    exact rowComplete_isSome
      (mem_validIdx.mp ((keptIdx_suffix stdFn hist).subset ht)).2
  · by_cases he : hist.isEmpty
    · have hnil : hist = [] := List.isEmpty_iff.mp he
      subst hnil
      have : validIdx stdFn [] = [] := by simp [validIdx]
      simp [get_sector_data, this]
    · rw [get_sector_data]
      simp only [he, Bool.false_eq_true, if_false, if_true]
      rw [length_renderRows, List.length_reverse, keptIdx_length]
  · intro t hlast
    have htv : t ∈ validIdx stdFn hist := by
      obtain ⟨ys, hys⟩ := List.getLast?_eq_some_iff.mp hlast
      rw [hys]
      exact List.mem_append.mpr (Or.inr (List.mem_singleton.mpr rfl))
    have hne : validIdx stdFn hist ≠ [] := by
      intro h0
      rw [h0] at htv
      exact absurd htv (List.not_mem_nil t)
    refine ⟨?_, le_getLast_of_pairwise_lt _ (validIdx_pairwise_lt stdFn hist) t hlast⟩
    rw [get_sector_data]
    simp only [hist_not_empty_of_valid htv, Bool.false_eq_true, if_false]
    rw [getLast?_keptIdx hne, hlast]
  · intro h0
    exact get_sector_data_of_valid_nil h0 code sectorName false clock
  · intro hshort
    refine ⟨validIdx_eq_nil_of_short hshort, ?_, ?_⟩
    · exact get_sector_data_of_valid_nil (validIdx_eq_nil_of_short hshort)
        code sectorName true clock
    · exact get_sector_data_of_valid_nil (validIdx_eq_nil_of_short hshort)
        code sectorName false clock

/-- Witness for C3_trimming: on the 76-day increasing series the valid
indices are 74 and 75 and latest-only mode returns exactly the row for
index 75; the 15-day series is shorter than 75 and retains nothing. -/
theorem C3_witness :
    get_sector_data "1617" "食品" false (.ok inc76) (fun _ => 0)
        (fun _ => "2025-06-30 15:00")
      = [makeRow "1617" "食品" (fun _ => 0) inc76 75 "2025-06-30 15:00"] ∧
    validIdx (fun _ => 0) inc15 = [] ∧
    get_sector_data "1617" "食品" true (.ok inc15) (fun _ => 0)
        (fun _ => "2025-06-30 15:00") = [] :=
  ⟨((C3_trimming (fun _ => 0) inc76 "1617" "食品"
      (fun _ => "2025-06-30 15:00")).2.2.1 75 (by with_unfolding_all decide)).1,
   ((C3_trimming (fun _ => 0) inc15 "1617" "食品"
      (fun _ => "2025-06-30 15:00")).2.2.2.2 (by with_unfolding_all decide)).1,
   ((C3_trimming (fun _ => 0) inc15 "1617" "食品"
      (fun _ => "2025-06-30 15:00")).2.2.2.2 (by with_unfolding_all decide)).2.1⟩

/-! ## Claim C4 -/

theorem sorted_strict_of_sorted_nodup {m l : List Row}
    (hm : m.Perm l) (hkeys : (l.map rowKey).Nodup)
    (hsor : m.Sorted rowDescOrder) : m.Sorted rowDescStrict := by
  have hn : (m.map rowKey).Nodup := ((hm.map rowKey).nodup_iff).mpr hkeys
  have hpw : m.Pairwise (fun a b => rowKey a ≠ rowKey b) := List.pairwise_map.mp hn
  exact (hsor.and hpw).imp
    (fun h => lt_of_le_of_ne h.1 (fun e => h.2 e.symm))

/-- Claim C4: the merge/sort stage sorts rows by date descending then
instrument code descending, and — whenever the `(date, code)` keys are
pairwise distinct, as they are for rows produced within one run — the
sorted output is identical for every arrival order of the collection. -/
theorem C4_sort_deterministic (l l' : List Row)
    (hkeys : (l.map rowKey).Nodup) (hperm : l'.Perm l) :
    sortRows l' = sortRows l ∧ (sortRows l).Sorted rowDescOrder := by
  have hs' : (sortRows l').Sorted rowDescOrder := List.sorted_insertionSort _ _
  have hs : (sortRows l).Sorted rowDescOrder := List.sorted_insertionSort _ _
  refine ⟨?_, hs⟩
  have hp' : (sortRows l').Perm l := (List.perm_insertionSort _ l').trans hperm
  have hp : (sortRows l).Perm l := List.perm_insertionSort _ l
  exact List.eq_of_perm_of_sorted (hp'.trans hp.symm)
    (sorted_strict_of_sorted_nodup hp' hkeys hs')
    (sorted_strict_of_sorted_nodup hp hkeys hs)

/-- A newer-dated row for the C4 witness. -/
def rowNew : Row :=
  ⟨"1617", "食品", "2025-01-02", 100, 0, 0, 0, 0, 50, 0, 1, "2025-01-02 15:00"⟩

/-- An older-dated row for the C4 witness. -/
def rowOld : Row :=
  ⟨"1633", "不動産", "2025-01-01", 90, 0, 0, 0, 0, 50, 0, 1, "2025-01-02 15:00"⟩

/-- Witness for C4_sort_deterministic: the two arrival orders of a
two-row collection with distinct keys sort identically and descending. -/
theorem C4_witness :
    sortRows [rowOld, rowNew] = sortRows [rowNew, rowOld] ∧
    (sortRows [rowNew, rowOld]).Sorted rowDescOrder :=
  C4_sort_deterministic [rowNew, rowOld] [rowOld, rowNew]
    (by with_unfolding_all decide) (List.Perm.swap rowNew rowOld [])

/-! ## Claim C5 -/

theorem update_sheet_ok_of_sink_ok (inp : RunInput)
    (h1 : inp.creds_found = true) (h2 : inp.authorize_ok = true)
    (h3 : inp.sheet_url_set = true) (h4 : inp.sheet_open_ok = true) :
    ∃ acts, update_sheet inp = Except.ok acts := by
  by_cases hI : isInitialOf inp.first_cell = true
  · exact ⟨[SinkAction.overwrite HEADERS
      (sortRows (batchRows true inp.fetch inp.stdFn inp.clock))],
      by simp [update_sheet, h1, h2, h3, h4, hI]⟩
  · have hIf : isInitialOf inp.first_cell = false := eq_false_of_ne_true hI
    by_cases hE : (batchRows false inp.fetch inp.stdFn inp.clock).isEmpty = true
    · exact ⟨[], by simp [update_sheet, h1, h2, h3, h4, hIf, hE]⟩
    · have hEf := eq_false_of_ne_true hE
      exact ⟨[SinkAction.insertRows
        (sortRows (batchRows false inp.fetch inp.stdFn inp.clock)) 2],
        by simp [update_sheet, h1, h2, h3, h4, hIf, hEf]⟩

/-- Claim C5: a feed error or empty result set for one instrument yields an
empty task result instead of a propagated exception; the batch output of
every other instrument is unchanged by that failure; and, as long as the
sink itself is reachable, the run returns normally whatever the fetch
outcomes are. -/
theorem C5_fault_isolation (f g : String → Except String Hist) (c0 e : String)
    (hg : g c0 = .error e) (hagree : ∀ c, c ≠ c0 → g c = f c)
    (stdFn : List ℚ → ℚ) (clock : String → Nat → String) (mode : Bool) :
    (∀ sectorName, get_sector_data c0 sectorName mode (g c0) stdFn (clock c0) = []) ∧
    (∀ code sectorName,
      get_sector_data code sectorName mode (.ok ([] : Hist)) stdFn (clock code) = []) ∧
    (batchRows mode g stdFn clock =
      (SECTOR_ETFS.map (fun p =>
        if p.1 = c0 then [] else
          get_sector_data p.1 p.2 mode (f p.1) stdFn (clock p.1))).flatten) ∧
    (∀ inp : RunInput, inp.creds_found = true → inp.authorize_ok = true →
        inp.sheet_url_set = true → inp.sheet_open_ok = true →
        ∃ acts, update_sheet inp = Except.ok acts) := by
  refine ⟨?_, ?_, ?_, ?_⟩
  · intro sectorName
    rw [hg]
    rfl
  · intro code sectorName
    rfl
  · rw [batchRows]
    congr 1
    apply List.map_congr_left
    intro p _
    by_cases hpc : p.1 = c0
    · rw [if_pos hpc, hpc, hg]
      rfl
    · rw [if_neg hpc, hagree p.1 hpc]
  · intro inp h1 h2 h3 h4
    exact update_sheet_ok_of_sink_ok inp h1 h2 h3 h4

/-- Fetch assignment for the isolation witness: only "1618" succeeds. -/
def fW : String → Except String Hist :=
  fun c => if c = "1618" then .ok inc76 else .error "no data"

/-- Fetch assignment where "1617" additionally fails with a feed error;
agrees with `fW` on every other instrument. -/
def gW : String → Except String Hist :=
  fun c => if c = "1617" then .error "boom" else fW c

/-- A fully configured run environment over the failing assignment `gW`. -/
def inpW : RunInput :=
  ⟨true, true, true, true, .ok (some "コード"), gW, fun _ => 0,
    fun _ _ => "2025-06-30 15:00"⟩

/-- Witness for C5_fault_isolation: with "1617" failing, its task yields
`[]`, the batch equals the per-instrument outputs of the non-failing
assignment, and the fully configured run still returns normally. -/
theorem C5_witness :
    get_sector_data "1617" "食品" true (gW "1617") (fun _ => 0)
        ((fun (_ : String) (_ : Nat) => "2025-06-30 15:00") "1617") = [] ∧
    batchRows true gW (fun _ => 0) (fun _ _ => "2025-06-30 15:00") =
      (SECTOR_ETFS.map (fun p => if p.1 = "1617" then [] else
        get_sector_data p.1 p.2 true (fW p.1) (fun _ => 0)
          ((fun (_ : String) (_ : Nat) => "2025-06-30 15:00") p.1))).flatten ∧
    ∃ acts, update_sheet inpW = Except.ok acts := by
  have h := C5_fault_isolation fW gW "1617" "boom" rfl
    (fun c hc => if_neg hc) (fun _ => 0) (fun _ _ => "2025-06-30 15:00") true
  exact ⟨h.1 "食品", h.2.2.1, h.2.2.2 inpW rfl rfl rfl rfl⟩

/-! ## Claim C2 -/

theorem get_sector_data_latest_len (code sectorName : String)
    (fetched : Except String Hist) (stdFn : List ℚ → ℚ) (clock : Nat → String) :
    (get_sector_data code sectorName false fetched stdFn clock).length ≤ 1 := by
  cases fetched with
  | error e => simp [get_sector_data]
  | ok hist =>
    rw [get_sector_data]
    by_cases he : hist.isEmpty = true
    · simp [he]
    · simp only [he, Bool.false_eq_true, if_false]
      cases hk : (keptIdx stdFn hist).getLast? <;> simp [hk]

/-- Claim C2 is false on the code in the empty-batch case: with a non-empty
first cell (incremental mode) but every fetch failing, no rows are
produced and `insert_rows` is never invoked — the run performs no write at
all, so "insert_rows is invoked" does not hold of every incremental run. -/
def inpIncrEmpty : RunInput :=
  ⟨true, true, true, true, .ok (some "コード"), fun _ => .error "down",
    fun _ => 0, fun _ _ => "2025-06-30 15:00"⟩

theorem C2_counterexample : update_sheet inpIncrEmpty = Except.ok [] := by
  with_unfolding_all rfl

/-- Claim C2 amended: an empty or absent first cell resolves the run to
bootstrap mode, tasks run full-history, and the overwrite path is invoked
exactly once with the header and all produced rows; a non-empty first cell
resolves to incremental mode, each task produces at most one row, and when
at least one row is produced `insert_rows` is invoked at position 2 leaving
the header and all prior history intact — when no rows are produced,
nothing is written. -/
theorem C2_mode_dispatch (inp : RunInput)
    (h1 : inp.creds_found = true) (h2 : inp.authorize_ok = true)
    (h3 : inp.sheet_url_set = true) (h4 : inp.sheet_open_ok = true) :
    ((inp.first_cell = .ok none ∨ inp.first_cell = .ok (some "")) →
      update_sheet inp = .ok [SinkAction.overwrite HEADERS
        (sortRows (batchRows true inp.fetch inp.stdFn inp.clock))]) ∧
    (∀ s : String, s ≠ "" → inp.first_cell = .ok (some s) →
      (∀ (code sectorName : String) (fetched : Except String Hist)
          (stdFn : List ℚ → ℚ) (clock : Nat → String),
        (get_sector_data code sectorName false fetched stdFn clock).length ≤ 1) ∧
      (batchRows false inp.fetch inp.stdFn inp.clock ≠ [] →
        update_sheet inp = .ok [SinkAction.insertRows
          (sortRows (batchRows false inp.fetch inp.stdFn inp.clock)) 2]) ∧
      (batchRows false inp.fetch inp.stdFn inp.clock = [] →
        update_sheet inp = .ok []) ∧
      (∀ (tbl : List SheetLine) (rows : List Row),
        applyAction tbl (SinkAction.insertRows rows 2) =
          tbl.take 1 ++ rows.map SheetLine.dataLine ++ tbl.drop 1)) := by
  constructor
  · intro hcell
    have hinit : isInitialOf inp.first_cell = true := by
      rcases hcell with h | h <;> rw [h] <;> rfl
    simp [update_sheet, h1, h2, h3, h4, hinit]
  · intro s hs hcell
    have hinit : isInitialOf inp.first_cell = false := by
      rw [hcell]
      simp [isInitialOf, truthyCell, hs]
    refine ⟨fun code sectorName fetched stdFn clock =>
      get_sector_data_latest_len code sectorName fetched stdFn clock, ?_, ?_, ?_⟩
    · intro hne
      have hE : (batchRows false inp.fetch inp.stdFn inp.clock).isEmpty = false := by
        rw [List.isEmpty_eq_false_iff_exists_mem]
        rcases List.exists_mem_of_ne_nil _ hne with ⟨x, hx⟩
        exact ⟨x, hx⟩
      simp [update_sheet, h1, h2, h3, h4, hinit, hE]
    · intro hnil
      simp [update_sheet, h1, h2, h3, h4, hinit, hnil]
    · intro tbl rows
      rfl

/-- A fully configured bootstrap run (empty first cell, all fetches down). -/
def inpBoot : RunInput :=
  ⟨true, true, true, true, .ok none, fun _ => .error "down", fun _ => 0,
    fun _ _ => "2025-06-30 15:00"⟩

/-- A fully configured incremental run over `gW`, in which exactly one
instrument ("1618") produces its latest row. -/
def inpIncrOne : RunInput :=
  ⟨true, true, true, true, .ok (some "コード"), gW, fun _ => 0,
    fun _ _ => "2025-06-30 15:00"⟩

/-- Witness for C2_mode_dispatch at both modes: the bootstrap run issues
exactly the single overwrite action, and the incremental run with one
produced row issues exactly the single insert-at-2 action. -/
theorem C2_witness :
    update_sheet inpBoot = .ok [SinkAction.overwrite HEADERS
      (sortRows (batchRows true inpBoot.fetch inpBoot.stdFn inpBoot.clock))] ∧
    update_sheet inpIncrOne = .ok [SinkAction.insertRows
      (sortRows (batchRows false inpIncrOne.fetch inpIncrOne.stdFn inpIncrOne.clock)) 2] :=
  ⟨(C2_mode_dispatch inpBoot rfl rfl rfl rfl).1 (Or.inl rfl),
   ((C2_mode_dispatch inpIncrOne rfl rfl rfl rfl).2 "コード"
      (by with_unfolding_all decide) rfl).2.1 (by with_unfolding_all decide)⟩

/-! ## Claim C6 -/

theorem getD_mem_windowAt {xs : List ℚ} {w t : Nat} (hw : 1 ≤ w)
    (hwt : w ≤ t + 1) (ht : t < xs.length) : xs.getD t 0 ∈ windowAt xs w t := by
  have hidx : w - 1 < (windowAt xs w t).length := by
    rw [windowAt, List.length_drop, List.length_take]
    omega
  have hval : (windowAt xs w t).get ⟨w - 1, hidx⟩ ∈ windowAt xs w t :=
    List.get_mem _ _ hidx
  have key : (windowAt xs w t).get ⟨w - 1, hidx⟩ = xs.getD t 0 := by
    rw [List.get_eq_getElem, List.getD_eq_getElem _ _ ht]
    simp only [windowAt]
    rw [List.getElem_drop, List.getElem_take]
    congr 1
    omega
  rw [key] at hval
  exact hval

theorem gains_getD {hist : Hist} {t : Nat} (ht : t < hist.length) :
    (gains hist).getD t 0 = gainAt hist t := by
  have hlen : t < (gains hist).length := by rw [length_gains]; exact ht
  rw [List.getD_eq_getElem _ _ hlen]
  simp only [gains]
  rw [List.getElem_map]
  congr 1
  apply List.getElem_range

/-- Claim C6: on a strictly increasing price series the 14-day average
loss is zero and the 14-day average gain is positive wherever the window is
saturated, so `gain/0 = +inf` and the RSI saturates at exactly 100 — a
defined value, never NaN and never an exception. -/
theorem C6_rsi_saturates (hist : Hist)
    (hmono : ∀ i, i < hist.length - 1 → closeAt hist i < closeAt hist (i + 1))
    (t : Nat) (h13 : 13 ≤ t) (ht : t < hist.length) :
    rsi hist t = some 100 := by
  have hloss : ∀ x ∈ losses hist, x = 0 := by
    intro x hx
    obtain ⟨i, hi, rfl⟩ := List.mem_map.mp hx
    have hi' := List.mem_range.mp hi
    rcases Nat.eq_zero_or_pos i with h0 | hpos
    · simp [lossAt, h0]
    · have h1 : i - 1 < hist.length - 1 := by omega
      have hlt := hmono (i - 1) h1
      rw [show i - 1 + 1 = i from by omega] at hlt
      rw [lossAt, if_neg (Nat.pos_iff_ne_zero.mp hpos)]
      exact max_eq_right (by linarith)
  have hlmean : rollingMean (losses hist) 14 t = some 0 :=
    rollingMean_eq_zero_of_all_zero hloss (by rw [length_losses]; omega)
  have hgnn : ∀ x ∈ gains hist, 0 ≤ x := by
    intro x hx
    obtain ⟨i, hi, rfl⟩ := List.mem_map.mp hx
    rcases Nat.eq_zero_or_pos i with h0 | hpos
    · simp [gainAt, h0]
    · rw [gainAt, if_neg (Nat.pos_iff_ne_zero.mp hpos)]
      exact le_max_right _ _
  have htpos : 0 < gainAt hist t := by
    have h1 : t - 1 < hist.length - 1 := by omega
    have hlt := hmono (t - 1) h1
    rw [show t - 1 + 1 = t from by omega] at hlt
    rw [gainAt, if_neg (by omega)]
    exact lt_max_of_lt_left (by linarith)
  have hglen : t < (gains hist).length := by rw [length_gains]; exact ht
  have hmem : (gains hist).getD t 0 ∈ windowAt (gains hist) 14 t :=
    getD_mem_windowAt (by omega) (by omega) hglen
  have hsum : 0 < (windowAt (gains hist) 14 t).sum := by
    have hle := List.single_le_sum (fun x hx => hgnn x (mem_windowAt hx)) _ hmem
    rw [gains_getD ht] at hle
    linarith
  have hgmean : rollingMean (gains hist) 14 t
      = some ((windowAt (gains hist) 14 t).sum / 14) := by
    rw [rollingMean, if_pos ⟨by omega, hglen⟩]
    norm_num
  have hgpos : (0 : ℚ) < (windowAt (gains hist) 14 t).sum / 14 := by positivity
  rw [rsi, hgmean, hlmean]
  simp [hgpos.ne']

/-- Witness for C6_rsi_saturates: the 15-day strictly increasing series has
RSI exactly 100 at its first saturated index. -/
theorem C6_witness : rsi inc15 13 = some 100 :=
  C6_rsi_saturates inc15 (by with_unfolding_all decide) 13 (by decide)
    (by with_unfolding_all decide)

/-! ## Claim C7 -/

/-- Claim C7: a zero-width Bollinger band yields `%B = 0` by the explicit
`np.where` guard, and a zero 5-day mean volume yields `vol_ratio = 0`
likewise — both produce defined values instead of a division error. -/
theorem C7_degenerate_divisions (stdFn : List ℚ → ℚ) (hist : Hist) (t : Nat) :
    (∀ u l, bbUp stdFn hist t = some u → bbLow stdFn hist t = some l →
      u - l = 0 → bbPctB stdFn hist t = some 0) ∧
    (∀ m, volMa5 hist t = some m → m = 0 → volRatioAt hist t = some 0) := by
  constructor
  · intro u l hu hl hz
    rw [bbPctB.eq_def, hu, hl]
    simp [hz]
  · intro m hm hm0
    rw [volRatioAt, hm]
    simp [hm0]

/-- Witness for C7_degenerate_divisions: twenty flat closes at 100 with
zero volume give a zero-width band and a zero mean volume at index 19. -/
theorem C7_witness :
    bbPctB (fun _ => 0) flatVol0 19 = some 0 ∧
    volRatioAt flatVol0 19 = some 0 :=
  ⟨(C7_degenerate_divisions (fun _ => 0) flatVol0 19).1 100 100
      (by with_unfolding_all decide) (by with_unfolding_all decide) (by norm_num),
   (C7_degenerate_divisions (fun _ => 0) flatVol0 19).2 0
      (by with_unfolding_all decide) rfl⟩

/-! ## Claim C8 -/

/-- A clock whose formatted minute changes after the first reading. -/
def tickClock : Nat → String :=
  fun k => if k = 0 then "2025-12-31 10:00" else "2025-12-31 10:01"

set_option maxRecDepth 40000 in
/-- Claim C8 is false on the code: `make_row` calls
`datetime.datetime.now()` once per row, so a single full-history invocation
whose clock crosses a minute boundary produces rows with different
`computed_at` values. -/
theorem C8_counterexample :
    ((get_sector_data "1617" "食品" true (.ok inc76) (fun _ => 0) tickClock).map
      (fun r => r.computed_at)) = ["2025-12-31 10:00", "2025-12-31 10:01"] ∧
    ("2025-12-31 10:00" : String) ≠ "2025-12-31 10:01" := by
  constructor
  · with_unfolding_all decide
  · with_unfolding_all decide

theorem renderRows_computed_at {code sectorName : String} {stdFn : List ℚ → ℚ}
    {hist : Hist} {clock : Nat → String} (hclk : ∀ k, clock k = clock 0) :
    ∀ (k : Nat) (ts : List Nat) (r : Row),
      r ∈ renderRows code sectorName stdFn hist clock k ts →
      r.computed_at = clock 0 := by
  intro k ts
  induction ts generalizing k with
  | nil => exact fun r hr => absurd hr (List.not_mem_nil r)
  | cons t ts ih =>
    intro r hr
    rcases List.mem_cons.mp hr with h | h
    · rw [h]
      exact hclk k
    · exact ih (k + 1) r h

/-- Claim C8 amended: the `computed_at` timestamp is generated per row, so
the rows of one task invocation all carry the same value exactly when every
wall-clock reading during that invocation formats identically (e.g. the
invocation completes within one minute). -/
theorem C8_amended (code sectorName : String) (mode : Bool)
    (fetched : Except String Hist) (stdFn : List ℚ → ℚ) (clock : Nat → String)
    (hclk : ∀ k, clock k = clock 0) :
    ∀ r ∈ get_sector_data code sectorName mode fetched stdFn clock,
      r.computed_at = clock 0 := by
  intro r hr
  cases fetched with
  | error e => exact absurd hr (List.not_mem_nil r)
  | ok hist =>
    rw [get_sector_data] at hr
    by_cases he : hist.isEmpty = true
    · rw [if_pos he] at hr
      exact absurd hr (List.not_mem_nil r)
    · rw [if_neg he] at hr
      cases mode with
      | false =>
        rw [if_neg (by simp)] at hr
        cases hk : (keptIdx stdFn hist).getLast? with
        | some t =>
          rw [hk] at hr
          rw [List.mem_singleton.mp hr]
          rfl
        | none =>
          rw [hk] at hr
          exact absurd hr (List.not_mem_nil r)
      | true =>
        rw [if_pos rfl] at hr
        exact renderRows_computed_at hclk 0 _ r hr

/-- A clock that never advances during the invocation. -/
def constClock : Nat → String := fun _ => "2025-12-31 10:00"

set_option maxRecDepth 40000 in
/-- Witness for C8_amended: under a non-advancing clock both produced rows
of the 76-day bootstrap invocation carry the same `computed_at`. -/
theorem C8_witness :
    List.Forall (fun r => r.computed_at = constClock 0)
      (get_sector_data "1617" "食品" true (.ok inc76) (fun _ => 0) constClock) :=
  List.forall_iff_forall_mem.mpr
    (C8_amended "1617" "食品" true (.ok inc76) (fun _ => 0) constClock
      (fun _ => rfl))

/-! ## Claim C9 -/

/-- A run with no credentials available. -/
def inpNoCreds : RunInput :=
  ⟨false, true, true, true, .ok none, fun _ => .error "down", fun _ => 0,
    fun _ _ => "2025-06-30 15:00"⟩

/-- Claim C9 is false on the code in its exit-status half: with missing
credentials the run performs no write (consistent with the claim's first
half) but `update_sheet` merely prints and returns, so the process
terminates with exit status 0, not a non-zero status. -/
theorem C9_counterexample :
    update_sheet inpNoCreds = Except.ok [] ∧ exitCode inpNoCreds = 0 :=
  ⟨rfl, rfl⟩

/-- Claim C9 amended: missing credentials, a missing sheet URL, or a sheet
open error each abort the run before any write is attempted (no overwrite
and no insert is invoked), but the run returns normally and the process
exits with status 0; only an uncaught exception (e.g. during
authorization) would give a non-zero status. -/
theorem C9_amended (inp : RunInput)
    (h : inp.creds_found = false
        ∨ (inp.authorize_ok = true ∧ inp.sheet_url_set = false)
        ∨ (inp.authorize_ok = true ∧ inp.sheet_open_ok = false)) :
    update_sheet inp = Except.ok [] ∧ exitCode inp = 0 := by
  have hok : update_sheet inp = Except.ok [] := by
    rcases h with h1 | ⟨h2, h3⟩ | ⟨h2, h4⟩
    · simp [update_sheet, h1]
    · by_cases hc : inp.creds_found = false
      · simp [update_sheet, hc]
      · have hct : inp.creds_found = true := by
          revert hc
          cases inp.creds_found <;> simp
        simp [update_sheet, hct, h2, h3]
    · by_cases hc : inp.creds_found = false
      · simp [update_sheet, hc]
      · have hct : inp.creds_found = true := by
          revert hc
          cases inp.creds_found <;> simp
        by_cases hu : inp.sheet_url_set = false
        · simp [update_sheet, hct, h2, hu]
        · have hut : inp.sheet_url_set = true := by
            revert hu
            cases inp.sheet_url_set <;> simp
          simp [update_sheet, hct, h2, hut, h4]
  refine ⟨hok, ?_⟩
  rw [exitCode.eq_def, hok]

/-- A run with credentials but no sheet URL configured. -/
def inpNoUrl : RunInput :=
  ⟨true, true, false, true, .ok none, fun _ => .error "down", fun _ => 0,
    fun _ _ => "2025-06-30 15:00"⟩

/-- Witness for C9_amended at a run missing the sheet URL. -/
theorem C9_witness :
    update_sheet inpNoUrl = Except.ok [] ∧ exitCode inpNoUrl = 0 :=
  C9_amended inpNoUrl (Or.inr (Or.inl ⟨rfl, rfl⟩))

/-! ## Claim C10 -/

/-- Claim C10: when reading the first data cell itself raises, the
`except` handler sets `is_initial_run = True`, so the run resolves to
bootstrap mode and rebuilds the full table through the overwrite path. -/
theorem C10_read_error_bootstrap (inp : RunInput) (e : Unit)
    (h1 : inp.creds_found = true) (h2 : inp.authorize_ok = true)
    (h3 : inp.sheet_url_set = true) (h4 : inp.sheet_open_ok = true)
    (hcell : inp.first_cell = .error e) :
    isInitialOf inp.first_cell = true ∧
    update_sheet inp = .ok [SinkAction.overwrite HEADERS
      (sortRows (batchRows true inp.fetch inp.stdFn inp.clock))] := by
  have hinit : isInitialOf inp.first_cell = true := by rw [hcell]; rfl
  exact ⟨hinit, by simp [update_sheet, h1, h2, h3, h4, hinit]⟩

/-- A fully configured run in which reading A1 raises. -/
def inpCellError : RunInput :=
  ⟨true, true, true, true, .error (), fun _ => .error "down", fun _ => 0,
    fun _ _ => "2025-06-30 15:00"⟩

/-- Witness for C10_read_error_bootstrap at a concrete failing A1 read. -/
theorem C10_witness :
    isInitialOf inpCellError.first_cell = true ∧
    update_sheet inpCellError = .ok [SinkAction.overwrite HEADERS
      (sortRows (batchRows true inpCellError.fetch inpCellError.stdFn
        inpCellError.clock))] :=
  C10_read_error_bootstrap inpCellError () rfl rfl rfl rfl rfl

end SectorAnalysis
